import Mathlib

/-!
Shallow embedding of the metadata-extraction and fuzzy catalog-matching core of
calibre-utils (src/main.py, class CalibreBookHandler) and proofs about it.

Strings are modelled as lists of characters (`Str`).  Each Python regex used by
the source is modelled by a dedicated executable function on `Str`, documented
at its definition.  Python dictionaries produced by the listing parser may lack
keys, hence `RawBook` has `Option` fields; an access to a missing key raises
`KeyError` in Python and the corresponding operations here return `PyResult`.
All recursive functions are structural (some via a fuel argument equal to the
input length, which is always sufficient since every step consumes at least one
character and one unit of fuel), so closed instances evaluate by `decide`.
-/

namespace Calibre

abbrev Str := List Char

/-- Python `str.strip(chars)`: drop characters satisfying `p` from both ends. -/
def pyStripChars (p : Char → Bool) (l : Str) : Str :=
  ((l.dropWhile p).reverse.dropWhile p).reverse

/-- Characters stripped by Python `str.strip()` with no argument. -/
def isPyWs (c : Char) : Bool :=
  c = ' ' || c = '\t' || c = '\n' || c = '\r' || c = '\x0b' || c = '\x0c'

/-- Python `str.strip()`. -/
def pyStrip (l : Str) : Str := pyStripChars isPyWs l

/-- Python `a in b` on strings: `a` occurs as a contiguous substring of `b`. -/
def isSubstr (a b : Str) : Bool :=
  (List.range (b.length + 1)).any (fun i => a.isPrefixOf (b.drop i))

/-- `re.split` on a character class with `+` (e.g. `[:_. ,]+`): split at each
maximal run of separator characters; a leading or trailing run contributes an
empty token, and splitting the empty string yields `[""]`. -/
def splitClass (p : Char → Bool) : Str → List Str
  | [] => [[]]
  | c :: rest =>
    if p c then
      -- a separator that is itself followed by a separator belongs to the
      -- same run: no further boundary
      if (rest.head?.map p).getD false then splitClass p rest
      else [] :: splitClass p rest
    else
      match splitClass p rest with
      | t :: ts => (c :: t) :: ts
      | [] => [[c]]

/-- Membership-based set inclusion of token lists: `set(as) ⊆ set(bs)`. -/
def tokensSubset (as bs : List Str) : Bool :=
  as.all (fun t => bs.any (fun u => u = t))

/-- Separator class of `is_subset`: regex `[:_. ,]+`. -/
def isSubsetSep (c : Char) : Bool :=
  c = ':' || c = '_' || c = '.' || c = ' ' || c = ','

/-- `CalibreBookHandler.is_subset`: split both strings on `[:_. ,]+` and test
set inclusion in either direction. -/
def is_subset (in_a in_b : Str) : Bool :=
  tokensSubset (splitClass isSubsetSep in_a) (splitClass isSubsetSep in_b) ||
  tokensSubset (splitClass isSubsetSep in_b) (splitClass isSubsetSep in_a)

/-- `re.split(r'  +', s)` via fuel (fuel = length is always sufficient):
split at each maximal run of at least two spaces. -/
def splitWideF : Nat → Str → List Str
  | 0, _ => [[]]
  | _ + 1, [] => [[]]
  | n + 1, c :: rest =>
    if c = ' ' && (rest.head? == some ' ') then
      [] :: splitWideF n (rest.dropWhile (fun x => x = ' '))
    else
      match splitWideF n rest with
      | t :: ts => (c :: t) :: ts
      | [] => [[c]]

def splitWide (l : Str) : List Str := splitWideF l.length l

/-- The single match of `re.findall(r'^\d+ +', s)` if any: a maximal leading
digit run followed by a maximal run of spaces (both non-empty). -/
def leadingIdStr (l : Str) : Str :=
  let digits := l.takeWhile Char.isDigit
  let spaces := (l.drop digits.length).takeWhile (fun c => c = ' ')
  if digits.isEmpty || spaces.isEmpty then [] else digits ++ spaces

/-- A trailing `'\n'`, before which Python's `$` anchor may also match. -/
def chopTrailNl (l : Str) : Str × Str :=
  match l.getLast? with
  | some c => if c = '\n' then (l.dropLast, ['\n']) else (l, [])
  | none => (l, [])

/-- Character class `[\w;,&]` (ASCII `\w`). -/
def isWordish (c : Char) : Bool :=
  c.isAlpha || c.isDigit || c = '_' || c = ';' || c = ',' || c = '&'

/-- `re.search(r'[\w;,&]+$', s) is not None`. -/
def endsWordish (l : Str) : Bool :=
  match (chopTrailNl l).1.getLast? with
  | some c => isWordish c
  | none => false

/-- `re.search` for a trailing run of hyphen or slash characters
(pattern: hyphen-slash class, plus, dollar). -/
def endsHyphenSlash (l : Str) : Bool :=
  match (chopTrailNl l).1.getLast? with
  | some c => c = '-' || c = '/'
  | none => false

/-- `re.search(r'^(Fail|id +title)', s) is not None`: the header/failure
pattern discarded by the listing parser. -/
def isHeaderOrFail (l : Str) : Bool :=
  "Fail".toList.isPrefixOf l ||
  (match l with
   | 'i' :: 'd' :: rest =>
     let sp := rest.takeWhile (fun c => c = ' ')
     (!sp.isEmpty) && "title".toList.isPrefixOf (rest.drop sp.length)
   | _ => false)

/-- The `Result` enumeration of src/main.py. -/
inductive Result where
  | PROCESSING
  | FILE_DOES_NOT_EXIST
  | NO_EXTENSION
  | CANNOT_EXTRACT_TITLE
  | TITLE_EMPTY
  | BOOK_NOT_FOUND
  | UNABLE_TO_ADD_BOOK
  | CONVERSION_FAILED
  | CONVERSION_ABANDONED_PDF
  | CONVERSION_SUCCESSFUL
  | FORMAT_IN_DB
  | UNABLE_TO_ADD_FORMAT
  | PROCESSED
  | UNKNOWN
deriving DecidableEq

/-- The `BookEntry` named tuple of src/main.py. -/
structure BookEntry where
  id : Int
  title : Str
  author : Str
  error : Result
deriving DecidableEq

/-- A dictionary built by `db_entries_to_dict` from the keys
`['id', 'title', 'author']`; any key may be missing (`none`). -/
structure RawBook where
  id : Option Str
  title : Option Str
  author : Option Str
deriving DecidableEq

/-- Python exceptions that the modelled code can raise. -/
inductive PyErr where
  | keyError
  | typeError
  | valueError
deriving DecidableEq

/-- Result of running a fragment of Python code: a value or a raised exception. -/
inductive PyResult (α : Type) where
  | ok (a : α)
  | exn (e : PyErr)
deriving DecidableEq

/-- Truthiness of `d.get(k, None)`: a present, non-empty string. -/
def truthyOpt (o : Option Str) : Bool :=
  match o with
  | some s => !s.isEmpty
  | none => false

/-- `CalibreBookHandler.resolve_book_entry_parts`. -/
def resolve_book_entry_parts (in_entry : Str) : List Str :=
  let id_str := leadingIdStr in_entry
  let rest := if id_str.isEmpty then in_entry else in_entry.drop id_str.length
  let entry_parts := splitWide rest
  let entry_parts := if id_str.isEmpty then entry_parts
                     else pyStrip id_str :: entry_parts
  if entry_parts.length < 3 && endsWordish rest then
    -- entry_parts.append(entry_parts[-1]); entry_parts[-2] = ""
    match entry_parts.getLast? with
    | some last => entry_parts.dropLast ++ [[], last]
    | none => entry_parts
  else entry_parts

/-- `dict(zip(['id', 'title', 'author'], parts))`. -/
def mkRawBook (parts : List Str) : RawBook :=
  ⟨parts[0]?, parts[1]?, parts[2]?⟩

/-- One iteration of the loop in `db_entries_to_dict` over a work entry,
acting on the accumulated `entries` list.  Reads of a missing dictionary key
(`entries[b_ix - 1]['title']`, `book['title']`, `entries[b_ix - 1]['author']`)
raise `KeyError`. -/
def db_step (entries : List RawBook) (w : Str) : PyResult (List RawBook) :=
  let parts := resolve_book_entry_parts w
  let book := mkRawBook parts
  if parts.isEmpty then .ok entries
  else if truthyOpt book.id then .ok (entries ++ [book])
  else if entries.length = 0 then .ok entries
  else
    match entries.getLast? with
    | none => .ok entries
    | some prev =>
      match prev.title with
      | none => .exn .keyError
      | some ptitle =>
        let join_char : Str := if endsHyphenSlash ptitle then [] else [' ']
        match book.title with
        | none => .exn .keyError
        | some btitle =>
          let prev1 : RawBook := ⟨prev.id, some (ptitle ++ join_char ++ btitle), prev.author⟩
          if truthyOpt book.author then
            match prev1.author with
            | none => .exn .keyError
            | some pauthor =>
              let prev2 : RawBook :=
                ⟨prev1.id, prev1.title, some (pauthor ++ [' '] ++ (book.author.getD []))⟩
              .ok (entries.dropLast ++ [prev2])
          else .ok (entries.dropLast ++ [prev1])

def db_loop (entries : List RawBook) : List Str → PyResult (List RawBook)
  | [] => .ok entries
  | w :: ws =>
    match db_step entries w with
    | .ok es => db_loop es ws
    | .exn e => .exn e

/-- Output of `db_entries_to_dict`: either the raw input lines passed through,
or a list of parsed record dictionaries. -/
inductive DbOut where
  | raw (ls : List Str)
  | recs (bs : List RawBook)
deriving DecidableEq

/-- `CalibreBookHandler.db_entries_to_dict`. -/
def db_entries_to_dict (in_entries : List Str) : PyResult DbOut :=
  if in_entries.isEmpty then .ok (.recs [])
  else
    let work_entries := in_entries.filter (fun e => !e.isEmpty && !isHeaderOrFail e)
    if work_entries.isEmpty then .ok (.raw in_entries)
    else
      match db_loop [] work_entries with
      | .ok es => .ok (.recs es)
      | .exn e => .exn e

/-- Character class `[:_-]` removed from titles by `test_title_author_sets`. -/
def isColonUnderHyphen (c : Char) : Bool :=
  c = ':' || c = '_' || c = '-'

/-- `re.sub` deleting every character of class `p` (models `re.sub(r'[X]+', '', s)`). -/
def removeChars (p : Char → Bool) (l : Str) : Str :=
  l.filter (fun c => !p c)

/-- Separator class `[ .]+` used for author word-sets in `test_title_author_sets`. -/
def isSpaceDot (c : Char) : Bool :=
  c = ' ' || c = '.'

/-- `db_title` in `test_title_author_sets`: the record title with `[:_-]+` removed. -/
def ttas_db_title (b : RawBook) : Str :=
  removeChars isColonUnderHyphen (b.title.getD [])

/-- `title_set` in `test_title_author_sets`. -/
def ttas_title_set (info : BookEntry) : List Str :=
  splitClass (fun c => c = ' ') (removeChars isColonUnderHyphen info.title)

/-- `db_title_set` in `test_title_author_sets`. -/
def ttas_db_title_set (b : RawBook) : List Str :=
  splitClass (fun c => c = ' ') (ttas_db_title b)

/-- `db_author_set` in `test_title_author_sets`. -/
def ttas_db_author_set (b : RawBook) : List Str :=
  splitClass isSpaceDot (b.author.getD [])

/-- `in_author_set` in `test_title_author_sets`. -/
def ttas_author_set (info : BookEntry) : List Str :=
  splitClass isSpaceDot info.author

/-- The local predicate `test_title_author_sets` of `matching_book`. -/
def test_title_author_sets (in_db_book : RawBook) (in_book : BookEntry) : Bool :=
  if isSubstr in_book.title (ttas_db_title in_db_book) then true
  else if !(tokensSubset (ttas_title_set in_book) (ttas_db_title_set in_db_book) ||
            tokensSubset (ttas_db_title_set in_db_book) (ttas_title_set in_book)) then false
  else if (ttas_author_set in_book).isEmpty || in_book.author.isEmpty then true
  else tokensSubset (ttas_db_author_set in_db_book) (ttas_title_set in_book) ||
       tokensSubset (ttas_db_author_set in_db_book) (ttas_author_set in_book)

/-- Digit-string value. -/
def natOfDigits (l : Str) : Nat :=
  l.foldl (fun n c => 10 * n + (c.toNat - 48)) 0

/-- Python `int(s)` on a string: optional surrounding whitespace, optional
sign, then at least one digit; anything else raises `ValueError`.  (Underscore
digit grouping accepted by Python is not modelled; the parsed catalog ids this
is applied to are plain digit runs.) -/
def pyIntOfStr (s : Str) : PyResult Int :=
  let t := pyStrip s
  match t with
  | '-' :: ds =>
    if !ds.isEmpty && ds.all Char.isDigit then .ok (-(natOfDigits ds : Int))
    else .exn .valueError
  | '+' :: ds =>
    if !ds.isEmpty && ds.all Char.isDigit then .ok (natOfDigits ds : Int)
    else .exn .valueError
  | ds =>
    if !ds.isEmpty && ds.all Char.isDigit then .ok (natOfDigits ds : Int)
    else .exn .valueError

/-- `int(d.get('id', -1))`: a missing key yields the integer `-1` directly. -/
def pyIntOfIdOpt (o : Option Str) : PyResult Int :=
  match o with
  | none => .ok (-1)
  | some s => pyIntOfStr s

/-- The scan of `matching_book` over the catalog: first record satisfying
`test_title_author_sets` wins; its id string is converted with `int(...)`. -/
def mb_loop (info : BookEntry) : List RawBook → PyResult (Option BookEntry)
  | [] => .ok none
  | b :: bs =>
    if test_title_author_sets b info then
      match pyIntOfIdOpt b.id with
      | .exn e => .exn e
      | .ok n => .ok (some ⟨n, b.title.getD [], b.author.getD [], .PROCESSING⟩)
    else mb_loop info bs

/-- `CalibreBookHandler.matching_book` (the catalog snapshot `self.books` is
passed explicitly). -/
def matching_book (books : List RawBook) (info : BookEntry) : PyResult BookEntry :=
  if info.title.isEmpty then .ok ⟨-1, [], [], .UNKNOWN⟩
  else
    match mb_loop info books with
    | .exn e => .exn e
    | .ok (some e) => .ok e
    | .ok none => .ok ⟨0, info.title, info.author, .BOOK_NOT_FOUND⟩

/-- Content class of the series-bracket pattern: `[a-zA-Z0-9 -]`. -/
def isBrContent (c : Char) : Bool :=
  c.isAlpha || c.isDigit || c = ' ' || c = '-'

/-- Scanner for the bracket pattern (an opening bracket or parenthesis, one or
more content characters, a closing bracket or parenthesis): returns the string
with all non-overlapping leftmost matches removed (`re.sub` with empty
replacement) together with the list of matched substrings (`re.finditer`).
Fuel = length is always sufficient. -/
def scanBF : Nat → Str → Str × List Str
  | 0, l => (l, [])
  | _ + 1, [] => ([], [])
  | n + 1, c :: rest =>
    if c = '[' || c = '(' then
      let content := rest.takeWhile isBrContent
      let after := rest.drop content.length
      if !content.isEmpty && (after.head? == some ')' || after.head? == some ']') then
        let r := scanBF n (after.drop 1)
        (r.1, (c :: (content ++ [(after.head?).getD ')'])) :: r.2)
      else
        let r := scanBF n rest
        (c :: r.1, r.2)
    else
      let r := scanBF n rest
      (c :: r.1, r.2)

def scanB (l : Str) : Str × List Str := scanBF l.length l

/-- Characters stripped from a bracket match to obtain `found_str`. -/
def isBracketChar (c : Char) : Bool :=
  c = '(' || c = ')' || c = '[' || c = ']'

/-- The loop of `remove_series_from_title` over the bracket matches: both
`poss_titles` and `poss_authors` are reassigned on every iteration, so only
the last match's catalog lookups survive; with no match both stay `[]`. -/
def rst_posses (books : List RawBook) (ms : List Str) : List RawBook × List RawBook :=
  ms.foldl (fun _ m =>
    let found := pyStripChars isBracketChar m
    (books.filter (fun dbb => is_subset found (dbb.title.getD [])),
     books.filter (fun dbb => is_subset found (dbb.author.getD [])))) ([], [])

/-- `CalibreBookHandler.remove_series_from_title`.  (The Python guard
`if not matches` is dead code: `re.finditer` returns an always-truthy
iterator, so it is not modelled.) -/
def remove_series_from_title (books : List RawBook) (work_title : Str) : Str × Str :=
  if work_title.isEmpty then ([], [])
  else
    let sc := scanB work_title
    let pp := rst_posses books sc.2
    if pp.1.isEmpty && pp.2.isEmpty then (pyStrip sc.1, [])
    else if !pp.2.isEmpty then
      (pyStrip sc.1, ((pp.2.head?).map (fun b => b.author.getD [])).getD [])
    else (work_title, [])

/-- `CalibreBookHandler.is_name`. -/
def is_name (books : List RawBook) (in_str : Str) : Bool :=
  books.any (fun dbb => is_subset in_str (dbb.author.getD []))

/-- `CalibreBookHandler.is_title`. -/
def is_title (books : List RawBook) (in_str : Str) : Bool :=
  books.any (fun dbb => is_subset in_str (dbb.title.getD []))

/-- Index of the first occurrence of `sep` in `s` (defined when `isSubstr sep s`). -/
def findFirstIdx (sep s : Str) : Nat :=
  (((List.range (s.length + 1)).filter (fun i => sep.isPrefixOf (s.drop i))).head?).getD 0

/-- Python `s.split(sep, 1)` under the guarantee that `sep` occurs in `s`:
the parts before and after the first occurrence. -/
def pySplitOnce (sep s : Str) : Str × Str :=
  let i := findFirstIdx sep s
  (s.take i, s.drop (i + sep.length))

/-- The literal separator of the hyphen heuristic. -/
def hyphenSep : Str := " - ".toList

/-- The filter building `db_poss_author` in `extract_title_if_hyphen`:
`dbb.get("author", None)` may be `None`, in which case `is_subset` raises
`TypeError` while the list comprehension is being evaluated. -/
def eth_filter_author (work_title : Str) : List RawBook → PyResult (List RawBook)
  | [] => .ok []
  | b :: bs =>
    match b.author with
    | none => .exn .typeError
    | some a =>
      match eth_filter_author work_title bs with
      | .exn e => .exn e
      | .ok r => .ok (if is_subset work_title a then b :: r else r)

/-- First loop of `extract_title_if_hyphen` over `db_poss_title`:
`db_author = db_bk.get("author", None)` raises `TypeError` inside `is_subset`
when the key is missing. -/
def eth_loop_title (work_author work_title : Str) : List RawBook → PyResult (Option BookEntry)
  | [] => .ok none
  | b :: bs =>
    match b.author with
    | none => .exn .typeError
    | some db_author =>
      if is_subset work_author db_author || is_subset db_author work_title then
        match pyIntOfIdOpt b.id with
        | .exn e => .exn e
        | .ok n => .ok (some ⟨n, b.title.getD [], db_author, .PROCESSING⟩)
      else eth_loop_title work_author work_title bs

/-- Second loop of `extract_title_if_hyphen` over `db_poss_author`:
`db_bk.get("title", None)` raises `TypeError` inside `is_subset` when missing. -/
def eth_loop_author (work_author : Str) : List RawBook → PyResult (Option BookEntry)
  | [] => .ok none
  | b :: bs =>
    match b.title with
    | none => .exn .typeError
    | some db_title =>
      if is_subset work_author db_title then
        match pyIntOfIdOpt b.id with
        | .exn e => .exn e
        | .ok n => .ok (some ⟨n, b.title.getD [], b.author.getD [], .PROCESSING⟩)
      else eth_loop_author work_author bs

/-- `CalibreBookHandler.extract_title_if_hyphen`. -/
def extract_title_if_hyphen (books : List RawBook) (working_title : Str) : PyResult BookEntry :=
  if !isSubstr hyphenSep working_title then
    .ok ⟨-1, working_title, [], .TITLE_EMPTY⟩
  else
    let split_title := pySplitOnce hyphenSep working_title
    let before_split := pyStrip split_title.1
    let after_split := pyStripChars (fun c => c = '-' || c = ' ') split_title.2
    let is_title_after := is_title books after_split || !is_name books after_split
    let work_author := if is_title_after then before_split else after_split
    let work_title := if is_title_after then after_split else before_split
    let db_poss_title := books.filter (fun dbb => is_subset work_title (dbb.title.getD []))
    match eth_loop_title work_author work_title db_poss_title with
    | .exn e => .exn e
    | .ok (some entry) => .ok entry
    | .ok none =>
      match eth_filter_author work_title books with
      | .exn e => .exn e
      | .ok db_poss_author =>
        match eth_loop_author work_author db_poss_author with
        | .exn e => .exn e
        | .ok (some entry) => .ok entry
        | .ok none =>
          .ok ⟨-1, (if !work_title.isEmpty then work_title else working_title),
               work_author, .PROCESSING⟩

/-- Greedy match length of the branding pattern (optional opening parenthesis,
literal z-lib, optionally any non-newline character followed by literal org,
optional closing parenthesis) at the head of `l`; `none` if no match here. -/
def zlibMatchLen (l : Str) : Option Nat :=
  let n0 := if l.head? == some '(' then 1 else 0
  if "z-lib".toList.isPrefixOf (l.drop n0) then
    let n1 := n0 + 5
    let n2 :=
      match l.drop n1 with
      | c :: 'o' :: 'r' :: 'g' :: _ => if c ≠ '\n' then n1 + 4 else n1
      | _ => n1
    some (if (l.drop n2).head? == some ')' then n2 + 1 else n2)
  else none

/-- `re.sub` of the branding pattern with empty replacement (non-overlapping
leftmost matches; every match has length at least 5, so fuel = length is
always sufficient). -/
def zlibSubF : Nat → Str → Str
  | 0, l => l
  | _ + 1, [] => []
  | n + 1, c :: rest =>
    match zlibMatchLen (c :: rest) with
    | some k => zlibSubF n ((c :: rest).drop k)
    | none => c :: zlibSubF n rest

def zlibSub (l : Str) : Str := zlibSubF l.length l

/-- `re.sub(r'[(.]+$', '', s)`: remove a trailing run of periods and opening
parentheses (also when the run stands just before a single trailing newline,
where the dollar anchor may match). -/
def stripTrailParenDot (l : Str) : Str :=
  let e := (chopTrailNl l).1
  ((e.reverse.dropWhile (fun c => c = '(' || c = '.')).reverse) ++ (chopTrailNl l).2

/-- Whether `t` matches `.*\) *` up to the end: its last non-space character
is a closing parenthesis and the dot-star region contains no newline. -/
def closeParenTail (t : Str) : Bool :=
  match t.reverse.dropWhile (fun c => c = ' ') with
  | c :: v => c = ')' && v.all (fun d => !(d = '\n'))
  | [] => false

/-- `re.sub(r'[(].*\) *$', "", s)`: delete from the leftmost opening
parenthesis that is followed (newline-free) by a closing parenthesis and then
only spaces up to the end (or up to a single trailing newline). -/
def stripTrailParenGroup (l : Str) : Str :=
  let e := (chopTrailNl l).1
  match (List.range e.length).find?
      (fun i => (e.drop i).head? == some '(' && closeParenTail (e.drop (i + 1))) with
  | some i => e.take i ++ (chopTrailNl l).2
  | none => l

/-- The literal separator of the by heuristic. -/
def byLit : Str := " by ".toList

/-- Python `s.rfind(sep)` under the guarantee that `sep` occurs in `s`: the
largest index at which `sep` starts. -/
def pyRFind (sep s : Str) : Nat :=
  Nat.findGreatest (fun i => sep.isPrefixOf (s.drop i) = true) s.length

/-- The working string of `extract_title_author` after series stripping,
branding removal, whitespace strip and trailing parenthesis-or-period strip,
just before the separator heuristics run. -/
def eta_work (books : List RawBook) (s : Str) : Str :=
  stripTrailParenDot (pyStrip (zlibSub (remove_series_from_title books s).1))

/-- `CalibreBookHandler.extract_title_author`. -/
def extract_title_author (books : List RawBook) (working_title : Str) : PyResult BookEntry :=
  let p := remove_series_from_title books working_title
  if p.1.isEmpty then .ok ⟨-1, [], [], .TITLE_EMPTY⟩
  else
    let w := eta_work books working_title
    if isSubstr byLit w then
      let ix := pyRFind byLit w
      .ok ⟨-1, pyStrip (w.take ix), pyStrip (w.drop (ix + byLit.length)), .PROCESSING⟩
    else
      match extract_title_if_hyphen books w with
      | .exn e => .exn e
      | .ok winfo =>
        let w2 := if !winfo.title.isEmpty then winfo.title else w
        .ok ⟨-1, pyStrip (stripTrailParenGroup w2),
             (if !winfo.author.isEmpty then winfo.author else p.2), .PROCESSING⟩

/-! ### Supporting lemmas -/

theorem splitClass_ne_nil (p : Char → Bool) : ∀ l : Str, splitClass p l ≠ []
  | [] => by simp [splitClass]
  | c :: rest => by
    simp only [splitClass]
    split
    · split
      · exact splitClass_ne_nil p rest
      · simp
    · cases h : splitClass p rest <;> simp

theorem scanBF_snd_nil : ∀ (n : Nat) (l : Str), (scanBF n l).2 = [] → (scanBF n l).1 = l := by
  intro n
  induction n with
  | zero => intro l _; rfl
  | succ n ih =>
    intro l h
    cases l with
    | nil => rfl
    | cons c rest =>
      simp only [scanBF] at h ⊢
      split at h
      · split at h
        · simp at h
        · rename_i hop hcl
          rw [if_pos hop, if_neg hcl]
          simp [ih rest h]
      · rename_i hop
        rw [if_neg hop]
        simp [ih rest h]

theorem scanB_snd_nil (l : Str) (h : (scanB l).2 = []) : (scanB l).1 = l :=
  scanBF_snd_nil l.length l h

theorem dropWhile_head_false (p : Char → Bool) (l : Str) (c : Char) (t : Str)
    (h : l.dropWhile p = c :: t) : p c = false := by
  have hh := List.head?_dropWhile_not p l
  rw [h] at hh
  simpa using hh

theorem dropWhile_idem (p : Char → Bool) (l : Str) :
    (l.dropWhile p).dropWhile p = l.dropWhile p := by
  cases h : l.dropWhile p with
  | nil => rfl
  | cons c t =>
    have hc := dropWhile_head_false p l c t h
    simp [List.dropWhile_cons, hc]

theorem dropWhile_eq_self_of_head (p : Char → Bool) (l : Str) (c : Char)
    (h : l.head? = some c) (hc : p c = false) : l.dropWhile p = l := by
  cases l with
  | nil => rfl
  | cons a t =>
    have : a = c := by simpa using h
    subst this
    simp [List.dropWhile_cons, hc]

theorem pyStripChars_idem (p : Char → Bool) (l : Str) :
    pyStripChars p (pyStripChars p l) = pyStripChars p l := by
  cases hy : l.dropWhile p with
  | nil => simp [pyStripChars, hy]
  | cons c0 t0 =>
    have hc0 : p c0 = false := dropWhile_head_false p l c0 t0 hy
    cases hz : (l.dropWhile p).reverse.dropWhile p with
    | nil => simp [pyStripChars, hz]
    | cons c t =>
      have hzsplit : (l.dropWhile p).reverse.takeWhile p ++ (c :: t) = (l.dropWhile p).reverse := by
        rw [← hz]; exact List.takeWhile_append_dropWhile p _
      have hlast : (c :: t).getLast? = (l.dropWhile p).reverse.getLast? := by
        rw [← hzsplit, List.getLast?_append_of_ne_nil]
        simp
      have hlast2 : (c :: t).getLast? = some c0 := by
        rw [hlast, List.getLast?_reverse, hy]
        rfl
      have hRhead : ((c :: t).reverse).head? = some c0 := by
        rw [List.head?_reverse]; exact hlast2
      have hR1 : ((c :: t).reverse).dropWhile p = (c :: t).reverse :=
        dropWhile_eq_self_of_head p _ c0 hRhead hc0
      have hR2 : (c :: t).dropWhile p = c :: t := by
        rw [← hz]; exact dropWhile_idem p _
      unfold pyStripChars
      rw [hz, hR1, List.reverse_reverse, hR2]

theorem pyStrip_idem (l : Str) : pyStrip (pyStrip l) = pyStrip l :=
  pyStripChars_idem isPyWs l

theorem rst_posses_nil (books : List RawBook) : rst_posses books [] = ([], []) := rfl

/-- With no bracket match in `w`, `remove_series_from_title` returns the
whitespace-stripped input with no recovered author. -/
theorem remove_series_eq_of_no_match (books : List RawBook) (w : Str)
    (h : (scanB w).2 = []) :
    remove_series_from_title books w = (pyStrip (scanB w).1, []) := by
  unfold remove_series_from_title
  by_cases hw : w.isEmpty
  · have hwn : w = [] := List.isEmpty_iff.mp hw
    subst hwn
    simp [scanB, scanBF, pyStrip, pyStripChars]
  · simp only [hw, Bool.false_eq_true, if_false]
    rw [h, rst_posses_nil]
    simp

/-- The stripped title of `remove_series_from_title` is either the
whitespace-stripped bracket-deleted string, or the input itself (in which
case at least one bracket match was present). -/
theorem remove_series_fst_cases (books : List RawBook) (s : Str) :
    (remove_series_from_title books s).1 = pyStrip (scanB s).1 ∨
    ((remove_series_from_title books s).1 = s ∧ (scanB s).2 ≠ []) := by
  unfold remove_series_from_title
  by_cases hs : s.isEmpty
  · left
    have hsn : s = [] := List.isEmpty_iff.mp hs
    subst hsn
    simp [scanB, scanBF, pyStrip, pyStripChars]
  · simp only [hs, Bool.false_eq_true, if_false]
    by_cases h1 : (rst_posses books (scanB s).2).1.isEmpty ∧ (rst_posses books (scanB s).2).2.isEmpty
    · left; simp [h1.1, h1.2]
    · by_cases h2 : (rst_posses books (scanB s).2).2.isEmpty
      · right
        have h1f : (rst_posses books (scanB s).2).1.isEmpty = false := by
          rcases Bool.eq_false_or_eq_true (rst_posses books (scanB s).2).1.isEmpty with ht | hf
          · exact absurd ⟨ht, h2⟩ h1
          · exact hf
        constructor
        · simp [h1f, h2]
        · intro hnil
          rw [hnil, rst_posses_nil] at h1f
          simp at h1f
      · left
        have h2f : (rst_posses books (scanB s).2).2.isEmpty = false := by
          rcases Bool.eq_false_or_eq_true (rst_posses books (scanB s).2).2.isEmpty with ht | hf
          · exact absurd ht h2
          · exact hf
        simp [h2f]

/-! ### Claim theorems -/

/-- C1: the claim states that every core operation returns a structured result
and never raises; on the input lines "hello!" and " abc" the listing parser
appends the first line as a record whose dictionary has only an id key, and
the second (continuation) line then reads the missing title key, so
`db_entries_to_dict` raises `KeyError`. -/
theorem C1_db_entries_to_dict_raises :
    db_entries_to_dict ["hello!".toList, " abc".toList] = .exn .keyError := by decide

/-- C2: the claim states that a result with `error = Result.PROCESSING`
(Resolved) has a non-empty title; on the base name "z-lib" (with any catalog,
here the empty one) the branding strip empties the working string after the
emptiness guard already ran, and `extract_title_author` returns an empty title
with `error = Result.PROCESSING`. -/
theorem C2_resolved_with_empty_title :
    extract_title_author [] "z-lib".toList = .ok ⟨-1, [], [], .PROCESSING⟩ := by decide

/-- C3: the claim states that the two listing lines yield one record with
title "The Left Hand of-Darkness" and author "Ursula K. Le Guin"; the first
line parses into a dictionary without an author key (its remainder ends in a
hyphen, so the right-shift step does not run), and the continuation line's
author append then reads the missing author key: `db_entries_to_dict` raises
`KeyError` instead of producing the record. -/
theorem C3_continuation_join_raises :
    db_entries_to_dict
      ["45  The Left Hand of-".toList, "  Darkness  Ursula K. Le Guin".toList] =
      .exn .keyError := by decide

/-- C9: counterexample to the claim that `is_subset` applied to the empty
string and any string returns true: splitting the empty string yields the
singleton set containing the empty token, not the empty set, and neither
direction of inclusion holds against the tokens of "hello". -/
theorem C9_counterexample :
    is_subset [] "hello".toList = false := by decide

/-- C9 (amended): `is_subset` applied to the empty string and `b` returns true
if and only if the empty token is among the tokens of `b` (the empty string
tokenizes to the singleton containing the empty token, which is included in
the tokens of `b` exactly when the empty token occurs there; the reverse
inclusion forces every token of `b`, of which there is at least one, to be the
empty token). -/
theorem C9_amended_empty_is_subset_iff (b : Str) :
    is_subset [] b = true ↔ [] ∈ splitClass isSubsetSep b := by
  constructor
  · intro h
    rcases (Bool.or_eq_true _ _).mp h with h1 | h2
    · have := (List.all_eq_true).mp h1 [] (by simp [splitClass])
      rcases (List.any_eq_true).mp this with ⟨u, hu, hequ⟩
      have : u = [] := by simpa using hequ
      rwa [this] at hu
    · obtain ⟨t0, ht0⟩ := List.exists_mem_of_ne_nil _ (splitClass_ne_nil isSubsetSep b)
      have := (List.all_eq_true).mp h2 t0 ht0
      rcases (List.any_eq_true).mp this with ⟨u, hu, hequ⟩
      have hu0 : u = [] := by simpa [splitClass] using hu
      have ht00 : t0 = [] := by
        have : u = t0 := by simpa using hequ
        rw [← this, hu0]
      rwa [ht00] at ht0
  · intro h
    apply (Bool.or_eq_true _ _).mpr
    left
    apply (List.all_eq_true).mpr
    intro t ht
    have ht0 : t = [] := by simpa [splitClass] using ht
    apply (List.any_eq_true).mpr
    exact ⟨[], h, by simp [ht0]⟩

/-- C10: when the input line list is non-empty but every line is empty or
matches the header/failure pattern, `db_entries_to_dict` returns the original
raw lines unchanged rather than a (possibly empty) list of records. -/
theorem C10_header_only_passthrough (in_entries : List Str)
    (hne : in_entries ≠ [])
    (hall : ∀ e ∈ in_entries, e = [] ∨ isHeaderOrFail e = true) :
    db_entries_to_dict in_entries = .ok (.raw in_entries) := by
  unfold db_entries_to_dict
  have h1 : in_entries.isEmpty = false := by simp [hne]
  have h2 : (in_entries.filter (fun e => !e.isEmpty && !isHeaderOrFail e)).isEmpty = true := by
    rw [List.isEmpty_iff, List.filter_eq_nil_iff]
    intro e he
    rcases hall e he with h | h
    · simp [h]
    · simp [h]
  simp [h1, h2]

/-- C10 witness: the concrete input consisting of a failure line and an empty
line is passed through verbatim. -/
theorem C10_header_only_passthrough_witness :
    db_entries_to_dict ["Fail".toList, []] = .ok (.raw ["Fail".toList, []]) :=
  C10_header_only_passthrough ["Fail".toList, []] (by decide) (by decide)

/-- Catalog record used by the C4 counterexample. -/
def c4_db_book : RawBook :=
  ⟨some "7".toList, some "Foundation".toList, some "Asimov".toList⟩

/-- Extraction used by the C4 counterexample. -/
def c4_info : BookEntry :=
  ⟨-1, "Foundation".toList, "Zebra".toList, .PROCESSING⟩

/-- C4 counterexample: the resolver counts the record as a match (via the
literal-substring short-circuit on titles) although the extracted author is
non-empty and none of the three subset conditions of the claim holds. -/
theorem C4_counterexample :
    matching_book [c4_db_book] c4_info =
      .ok ⟨7, "Foundation".toList, "Asimov".toList, .PROCESSING⟩ ∧
    test_title_author_sets c4_db_book c4_info = true ∧
    c4_info.author.isEmpty = false ∧
    tokensSubset (ttas_author_set c4_info) (ttas_db_author_set c4_db_book) = false ∧
    tokensSubset (ttas_author_set c4_info) (ttas_db_title_set c4_db_book) = false ∧
    tokensSubset (ttas_db_author_set c4_db_book) (ttas_title_set c4_info) = false := by
  decide

/-- C4 (amended): when the extracted title is not a literal substring of the
record's punctuation-stripped title (so the substring short-circuit does not
fire) and the extracted author is non-empty, a record counted as a match
satisfies: the record's author word-set is a subset of the extraction's title
word-set, or of the extracted author's word-set. -/
theorem C4_amended_match_author_condition (b : RawBook) (info : BookEntry)
    (hmatch : test_title_author_sets b info = true)
    (hauthor : info.author ≠ [])
    (hnotsub : isSubstr info.title (ttas_db_title b) = false) :
    tokensSubset (ttas_db_author_set b) (ttas_title_set info) = true ∨
    tokensSubset (ttas_db_author_set b) (ttas_author_set info) = true := by
  unfold test_title_author_sets at hmatch
  split at hmatch
  · simp_all
  · split at hmatch
    · simp_all
    · split at hmatch
      · have hempty1 : (ttas_author_set info).isEmpty = false := by
          simp [ttas_author_set, List.isEmpty_iff, splitClass_ne_nil]
        have hempty2 : info.author.isEmpty = false := by
          simp [List.isEmpty_iff, hauthor]
        simp_all
      · exact (Bool.or_eq_true _ _).mp hmatch

/-- Catalog record used by the C4 amended-claim witness. -/
def c4w_db_book : RawBook :=
  ⟨some "7".toList, some "Foundation".toList, some "Asimov".toList⟩

/-- Extraction used by the C4 amended-claim witness. -/
def c4w_info : BookEntry :=
  ⟨-1, "Foundation X".toList, "Isaac Asimov".toList, .PROCESSING⟩

/-- C4 witness: amended claim applied at a concrete matching record whose
title agreement goes through the word-set route. -/
theorem C4_amended_match_author_condition_witness :
    tokensSubset (ttas_db_author_set c4w_db_book) (ttas_title_set c4w_info) = true ∨
    tokensSubset (ttas_db_author_set c4w_db_book) (ttas_author_set c4w_info) = true :=
  C4_amended_match_author_condition c4w_db_book c4w_info (by decide) (by decide) (by decide)

/-- Catalog used by the C5 theorem. -/
def c5_catalog : List RawBook :=
  [⟨some "1".toList, some "Foundation".toList, some "Isaac Asimov".toList⟩]

/-- C5: with a catalog containing (title "Foundation", author "Isaac Asimov"),
extracting from "Isaac Asimov - Foundation" yields a `PROCESSING` (Resolved)
result with title "Foundation" and author "Isaac Asimov"; the underlying
hyphen heuristic returns that record's id, title and author as a direct hit
(the outer extractor then rebuilds the entry with the sentinel id -1). -/
theorem C5_hyphen_disambiguation :
    extract_title_author c5_catalog "Isaac Asimov - Foundation".toList =
      .ok ⟨-1, "Foundation".toList, "Isaac Asimov".toList, .PROCESSING⟩ ∧
    extract_title_if_hyphen c5_catalog "Isaac Asimov - Foundation".toList =
      .ok ⟨1, "Foundation".toList, "Isaac Asimov".toList, .PROCESSING⟩ := by
  decide

/-- Catalog used by the C7 counterexample and witness. -/
def c7_catalog : List RawBook :=
  [⟨some "1".toList, some "Dune".toList, some "Frank Herbert".toList⟩]

/-- C7 counterexample: the bracket content "Dune" fuzzy-matches the catalog
record's title and no record's author, yet `remove_series_from_title` returns
the input unchanged — not, as the claim states, the string with the bracket
group deleted (which would be "Dune"). -/
theorem C7_counterexample :
    is_subset "Dune".toList "Dune".toList = true ∧
    is_subset "Dune".toList "Frank Herbert".toList = false ∧
    (scanB "Dune (Dune)".toList).2 = ["(Dune)".toList] ∧
    remove_series_from_title c7_catalog "Dune (Dune)".toList =
      ("Dune (Dune)".toList, []) ∧
    pyStrip (scanB "Dune (Dune)".toList).1 = "Dune".toList ∧
    ("Dune (Dune)".toList ≠ "Dune".toList) := by decide

/-- C7 (amended): when the catalog lookups of the (last) bracket group leave
`poss_titles` non-empty and `poss_authors` empty — the bracket content matches
a record title but no record author — the stripper returns the input string
unchanged with an empty recovered author. -/
theorem C7_amended_title_match_unchanged (books : List RawBook) (w : Str)
    (hne : w.isEmpty = false)
    (ht : (rst_posses books (scanB w).2).1.isEmpty = false)
    (ha : (rst_posses books (scanB w).2).2.isEmpty = true) :
    remove_series_from_title books w = (w, []) := by
  unfold remove_series_from_title
  simp [hne, ht, ha]

/-- C7 witness: amended claim applied at the concrete "Dune (Dune)" input. -/
theorem C7_amended_title_match_unchanged_witness :
    remove_series_from_title c7_catalog "Dune (Dune)".toList =
      ("Dune (Dune)".toList, []) :=
  C7_amended_title_match_unchanged c7_catalog "Dune (Dune)".toList
    (by decide) (by decide) (by decide)

/-- Catalog used by the C8 counterexample. -/
def c8_catalog : List RawBook :=
  [⟨some "1".toList, some "t".toList, some "a b c".toList⟩]

/-- C8 counterexample: stripping "(a(b) c)" deletes the inner bracket group
"(b)" and thereby juxtaposes a new bracket group "(a c)"; a second application
strips again, so the stripped title after two applications differs from the
one after one application. -/
theorem C8_counterexample :
    (remove_series_from_title c8_catalog "(a(b) c)".toList).1 = "(a c)".toList ∧
    (remove_series_from_title c8_catalog
      ((remove_series_from_title c8_catalog "(a(b) c)".toList).1)).1 = [] ∧
    ((remove_series_from_title c8_catalog
        ((remove_series_from_title c8_catalog "(a(b) c)".toList).1)).1 ≠
      (remove_series_from_title c8_catalog "(a(b) c)".toList).1) := by decide

/-- C8 (amended): applying the stripper twice yields the same stripped title
as applying it once whenever the once-stripped title contains no bracket-group
match (deleting bracket groups can juxtapose a new bracketed group, which is
the only way a second application can differ). -/
theorem C8_amended_idempotent_of_no_new_match (books : List RawBook) (s : Str)
    (h : (scanB ((remove_series_from_title books s).1)).2 = []) :
    (remove_series_from_title books ((remove_series_from_title books s).1)).1 =
      (remove_series_from_title books s).1 := by
  rw [remove_series_eq_of_no_match books _ h, scanB_snd_nil _ h]
  rcases remove_series_fst_cases books s with hc | hc
  · rw [hc]
    exact pyStripChars_idem isPyWs _
  · exact absurd (hc.1 ▸ h) hc.2

/-- C8 witness: amended claim applied at "Dune (Book 3)" against the empty
catalog, whose once-stripped title "Dune" has no bracket match. -/
theorem C8_amended_idempotent_of_no_new_match_witness :
    (remove_series_from_title [] ((remove_series_from_title [] "Dune (Book 3)".toList).1)).1 =
      (remove_series_from_title [] "Dune (Book 3)".toList).1 :=
  C8_amended_idempotent_of_no_new_match [] "Dune (Book 3)".toList (by decide)

/-- Occurrences of `sep` in `s` expressed through `isSubstr`. -/
theorem isSubstr_exists (sep s : Str) (h : isSubstr sep s = true) :
    ∃ i, i ≤ s.length ∧ sep.isPrefixOf (s.drop i) = true := by
  unfold isSubstr at h
  simp only [List.any_eq_true, List.mem_range] at h
  obtain ⟨i, hir, hip⟩ := h
  exact ⟨i, Nat.lt_succ_iff.mp hir, hip⟩

/-- C6: whenever the stripped working string contains the literal separator
" by ", `extract_title_author` splits at its last occurrence — the working
string decomposes as `t ++ " by " ++ a` with no further occurrence inside
`a`, and the result is the (whitespace-stripped) `t` as title and `a` as
author with `error = PROCESSING` — for every catalog and before the hyphen
heuristic is consulted. -/
theorem C6_by_split_at_last (books : List RawBook) (s : Str)
    (h1 : (remove_series_from_title books s).1.isEmpty = false)
    (h2 : isSubstr byLit (eta_work books s) = true) :
    ∃ t a : Str,
      eta_work books s = t ++ byLit ++ a ∧
      isSubstr byLit a = false ∧
      extract_title_author books s =
        .ok ⟨-1, pyStrip t, pyStrip a, .PROCESSING⟩ := by
  obtain ⟨i0, hi0le, hi0⟩ := isSubstr_exists byLit (eta_work books s) h2
  have hspec : byLit.isPrefixOf ((eta_work books s).drop (pyRFind byLit (eta_work books s))) =
      true := by
    unfold pyRFind
    exact Nat.findGreatest_spec
      (P := fun i => byLit.isPrefixOf ((eta_work books s).drop i) = true) hi0le hi0
  have hgr : ∀ k, pyRFind byLit (eta_work books s) < k → k ≤ (eta_work books s).length →
      ¬(byLit.isPrefixOf ((eta_work books s).drop k) = true) := by
    intro k hk hkle
    unfold pyRFind at hk
    exact Nat.findGreatest_is_greatest
      (P := fun i => byLit.isPrefixOf ((eta_work books s).drop i) = true) hk hkle
  obtain ⟨rest, hrest⟩ :=
    (List.isPrefixOf_iff_prefix.mp hspec)
  have hdecomp : eta_work books s =
      (eta_work books s).take (pyRFind byLit (eta_work books s)) ++ byLit ++ rest := by
    conv_lhs => rw [← List.take_append_drop (pyRFind byLit (eta_work books s)) (eta_work books s)]
    rw [← hrest, List.append_assoc]
  have hrest_eq : rest =
      (eta_work books s).drop (pyRFind byLit (eta_work books s) + byLit.length) := by
    have := congrArg (List.drop byLit.length) hrest
    rw [List.drop_left, List.drop_drop] at this
    rw [this, Nat.add_comm]
  have hno : isSubstr byLit rest = false := by
    rcases Bool.eq_false_or_eq_true (isSubstr byLit rest) with hT | hF
    · exfalso
      obtain ⟨j, hjle, hjp⟩ := isSubstr_exists byLit rest hT
      have hdropj : rest.drop j =
          (eta_work books s).drop (pyRFind byLit (eta_work books s) + byLit.length + j) := by
        rw [hrest_eq, List.drop_drop]
      have hklen : pyRFind byLit (eta_work books s) + byLit.length + j ≤
          (eta_work books s).length := by
        by_contra hgt
        push_neg at hgt
        have hnil : (eta_work books s).drop
            (pyRFind byLit (eta_work books s) + byLit.length + j) = [] :=
          List.drop_eq_nil_of_le (Nat.le_of_lt hgt)
        rw [← hdropj] at hnil
        rw [hnil] at hjp
        simp [byLit, List.isPrefixOf] at hjp
      have hbig : pyRFind byLit (eta_work books s) <
          pyRFind byLit (eta_work books s) + byLit.length + j := by
        have hpos : 0 < byLit.length := by decide
        omega
      exact hgr _ hbig hklen (by rw [← hdropj]; exact hjp)
    · exact hF
  refine ⟨(eta_work books s).take (pyRFind byLit (eta_work books s)), rest, hdecomp, hno, ?_⟩
  unfold extract_title_author
  rw [hrest_eq]
  simp [h1, h2]

/-- C6 witness: the concrete input "Neuromancer by William Gibson" against the
empty catalog decomposes at " by " into title "Neuromancer" and author
"William Gibson" regardless of catalog contents. -/
theorem C6_by_split_at_last_witness :
    ∃ t a : Str,
      eta_work [] "Neuromancer by William Gibson".toList = t ++ byLit ++ a ∧
      isSubstr byLit a = false ∧
      extract_title_author [] "Neuromancer by William Gibson".toList =
        .ok ⟨-1, pyStrip t, pyStrip a, .PROCESSING⟩ :=
  C6_by_split_at_last [] "Neuromancer by William Gibson".toList (by decide) (by decide)

end Calibre
